import Mathlib

/-!
Verification of the go-smtpproxy relay engine against its specification.

The Go sources are shallowly embedded: each Go function that a property
mentions is translated into a Lean definition over explicit inputs
(upstream transport behaviour, downstream lines, connection flags), and
the properties are proved as theorems about those definitions.

Conventions:
* a Go `error` value is `Option String` (`none` is `nil`, `some s` an
  error whose `Error()` text is `s`);
* Go `int` is `Int`; Go integer division truncates toward zero, which is
  `Int.tdiv`;
* byte streams are `List Nat`;
* functions with externally supplied behaviour (the upstream server, the
  TLS layer) take that behaviour as an argument.
-/

namespace SmtpProxy

/-- A reply triple `(code, msg, err)` as returned by the Go client calls
`MyCmd`, `Hello`, `StartTLS`: SMTP code, message text, and error value. -/
structure Reply where
  code : Int
  msg : String
  err : Option String
deriving Repr, DecidableEq

/-- `proxySession.Passthru` (proxy_app.go): joins `cmd` and `arg` with a
space when `arg` is nonempty, sends the joined line upstream via
`Client.MyCmd` (supplied here as the function `myCmd` from the expect code
and the line to the transport's reply), and on a transport error carrying
`code == 0` synthesises `code = 599` with the error text as message. -/
def Passthru (myCmd : Int → String → Reply) (expectcode : Int) (cmd arg : String) : Reply :=
  let joined := if arg ≠ "" then cmd ++ " " ++ arg else cmd
  let r := myCmd expectcode joined
  match r.err with
  | some e => if r.code = 0 then { code := 599, msg := e, err := some e } else r
  | none => r

/-- `proxySession.Auth` (proxy_app.go): delegates to `Passthru`. -/
def sessionAuth (myCmd : Int → String → Reply) (expectcode : Int) (cmd arg : String) : Reply :=
  Passthru myCmd expectcode cmd arg

/-- `proxySession.Mail` (proxy_app.go): delegates to `Passthru`. -/
def sessionMail (myCmd : Int → String → Reply) (expectcode : Int) (cmd arg : String) : Reply :=
  Passthru myCmd expectcode cmd arg

/-- `proxySession.Rcpt` (proxy_app.go): delegates to `Passthru`. -/
def sessionRcpt (myCmd : Int → String → Reply) (expectcode : Int) (cmd arg : String) : Reply :=
  Passthru myCmd expectcode cmd arg

/-- `proxySession.Reset` (proxy_app.go): delegates to `Passthru`. -/
def sessionReset (myCmd : Int → String → Reply) (expectcode : Int) (cmd arg : String) : Reply :=
  Passthru myCmd expectcode cmd arg

/-- `proxySession.Quit` (proxy_app.go): delegates to `Passthru`. -/
def sessionQuit (myCmd : Int → String → Reply) (expectcode : Int) (cmd arg : String) : Reply :=
  Passthru myCmd expectcode cmd arg

/-- `proxySession.Unknown` (proxy_app.go): delegates to `Passthru`. -/
def sessionUnknown (myCmd : Int → String → Reply) (expectcode : Int) (cmd arg : String) : Reply :=
  Passthru myCmd expectcode cmd arg

/-- The line `Passthru` sends upstream for a given `cmd`/`arg` pair. -/
def joinedLine (cmd arg : String) : String :=
  if arg ≠ "" then cmd ++ " " ++ arg else cmd

theorem passthru_joined (myCmd : Int → String → Reply) (e : Int) (cmd arg : String) :
    Passthru myCmd e cmd arg =
      (match (myCmd e (joinedLine cmd arg)).err with
       | some t =>
         if (myCmd e (joinedLine cmd arg)).code = 0 then
           { code := 599, msg := t, err := some t }
         else myCmd e (joinedLine cmd arg)
       | none => myCmd e (joinedLine cmd arg)) := rfl

/-- C1: every passthrough session command (Auth, Mail, Rcpt, Reset, Quit,
Unknown) is `Passthru`; when the upstream transport returns an error with
code 0, the session returns `(599, err.Error())`; in every other case the
`(code, msg)` pair is exactly the upstream reply, unmodified. -/
theorem C1_passthru_propagation (myCmd : Int → String → Reply) (e : Int) (cmd arg : String) :
    (sessionAuth myCmd e cmd arg = Passthru myCmd e cmd arg ∧
     sessionMail myCmd e cmd arg = Passthru myCmd e cmd arg ∧
     sessionRcpt myCmd e cmd arg = Passthru myCmd e cmd arg ∧
     sessionReset myCmd e cmd arg = Passthru myCmd e cmd arg ∧
     sessionQuit myCmd e cmd arg = Passthru myCmd e cmd arg ∧
     sessionUnknown myCmd e cmd arg = Passthru myCmd e cmd arg) ∧
    (∀ t, (myCmd e (joinedLine cmd arg)).err = some t →
      (myCmd e (joinedLine cmd arg)).code = 0 →
        (Passthru myCmd e cmd arg).code = 599 ∧ (Passthru myCmd e cmd arg).msg = t) ∧
    ((myCmd e (joinedLine cmd arg)).err = none ∨ (myCmd e (joinedLine cmd arg)).code ≠ 0 →
      (Passthru myCmd e cmd arg).code = (myCmd e (joinedLine cmd arg)).code ∧
      (Passthru myCmd e cmd arg).msg = (myCmd e (joinedLine cmd arg)).msg) := by
  refine ⟨⟨rfl, rfl, rfl, rfl, rfl, rfl⟩, ?_, ?_⟩
  · intro t ht hc
    rw [passthru_joined]
    simp only [ht, hc, if_pos]
    exact ⟨trivial, trivial⟩
  · intro h
    rw [passthru_joined]
    rcases h with h | h
    · simp only [h]
      exact ⟨trivial, trivial⟩
    · cases he : (myCmd e (joinedLine cmd arg)).err with
      | none =>
        simp only [he]
        exact ⟨trivial, trivial⟩
      | some t =>
        simp only [he, if_neg h]
        exact ⟨trivial, trivial⟩

/-- Witness for C1: a transport failure with code 0 on `MAIL FROM:<a@b>` is
reported as `(599, "dial error")`, while a clean 250 reply passes through. -/
theorem C1_passthru_propagation_witness :
    (Passthru (fun _ _ => ⟨0, "", some "dial error"⟩) 0 "MAIL" "FROM:<a@b>").code = 599 ∧
    (Passthru (fun _ _ => ⟨0, "", some "dial error"⟩) 0 "MAIL" "FROM:<a@b>").msg = "dial error" ∧
    (Passthru (fun _ _ => ⟨250, "2.0.0 ok", none⟩) 0 "MAIL" "FROM:<a@b>").code = 250 ∧
    (Passthru (fun _ _ => ⟨250, "2.0.0 ok", none⟩) 0 "MAIL" "FROM:<a@b>").msg = "2.0.0 ok" := by
  have h1 := (C1_passthru_propagation (fun _ _ => ⟨0, "", some "dial error"⟩)
    0 "MAIL" "FROM:<a@b>").2.1 "dial error" rfl rfl
  have h2 := (C1_passthru_propagation (fun _ _ => ⟨250, "2.0.0 ok", none⟩)
    0 "MAIL" "FROM:<a@b>").2.2 (Or.inl rfl)
  exact ⟨h1.1, h1.2, h2.1, h2.2⟩

/-- `EnhancedCode` (smtp.go): a triple of ints per RFC 3463. -/
abbrev EnhancedCode := Int × Int × Int

/-- `EnhancedCodeNotSet` (smtp.go): the zero value, meaning the caller did
not supply an enhanced code. -/
def EnhancedCodeNotSet : EnhancedCode := (0, 0, 0)

/-- `NoEnhancedCode` (smtp.go): sentinel meaning "emit no enhanced code". -/
def NoEnhancedCode : EnhancedCode := (-1, -1, -1)

/-- The terminal reply line `Conn.WriteResponse` prints: `"<code> <text>"`
without an enhanced code, `"<code> <c>.<s>.<d> <text>"` with one. -/
def terminalLine (code : Int) (enh : EnhancedCode) (text : String) : String :=
  if enh = NoEnhancedCode then toString code ++ " " ++ text
  else toString code ++ " " ++ toString enh.1 ++ "." ++ toString enh.2.1 ++ "."
    ++ toString enh.2.2 ++ " " ++ text

/-- The enhanced code `Conn.WriteResponse` settles on: when the caller
passed `EnhancedCodeNotSet`, the class `code / 100` (Go division truncates
toward zero) yields `(class, 0, 0)` for classes 2, 4 and 5, otherwise
`NoEnhancedCode`; any other caller value is kept. -/
def resolveEnhCode (code : Int) (enhCode : EnhancedCode) : EnhancedCode :=
  if enhCode = EnhancedCodeNotSet then
    let cat := Int.tdiv code 100
    if cat = 2 ∨ cat = 4 ∨ cat = 5 then (cat, 0, 0) else NoEnhancedCode
  else enhCode

/-- `Conn.WriteResponse` (backend.go): the reply lines written downstream.
All but the last text produce continuation lines `"<code>-<text>"`; the
last produces the terminal line. The Go code indexes `text[len(text)-1]`
and panics on an empty slice (no call site passes one); the model returns
`[]` there. -/
def WriteResponse (code : Int) (enhCode : EnhancedCode) : List String → List String
  | [] => []
  | t :: ts =>
    let enh := resolveEnhCode code enhCode
    ((t :: ts).dropLast.map fun s => toString code ++ "-" ++ s) ++
      [terminalLine code enh ((t :: ts).getLast (by simp))]

/-- Counterexample to C2: code 599 lies outside
`[200,299] ∪ [400,499] ∪ [500,559]`, yet with the unset sentinel the
terminal line carries the synthesised enhanced code `5.0.0` — the Go
switch tests the class `code / 100 ∈ {2,4,5}`, i.e. the 5xx range runs to
599, not 559. -/
theorem C2_enhanced_range_counterexample :
    WriteResponse 599 EnhancedCodeNotSet ["x"] = ["599 5.0.0 x"] ∧
    ¬((200 ≤ (599 : Int) ∧ (599 : Int) ≤ 299) ∨ (400 ≤ (599 : Int) ∧ (599 : Int) ≤ 499) ∨
      (500 ≤ (599 : Int) ∧ (599 : Int) ≤ 559)) := by
  constructor
  · rfl
  · decide

theorem int_div100_cases (c : Int) :
    (Int.tdiv c 100 = 2 ↔ 200 ≤ c ∧ c ≤ 299) ∧
    (Int.tdiv c 100 = 4 ↔ 400 ≤ c ∧ c ≤ 499) ∧
    (Int.tdiv c 100 = 5 ↔ 500 ≤ c ∧ c ≤ 599) := by
  by_cases hc : 0 ≤ c
  · simp only [Int.tdiv_eq_ediv hc (by norm_num : (0 : Int) ≤ 100)]
    omega
  · have h2 : Int.tdiv c 100 = -(Int.tdiv (-c) 100) := by
      rw [← Int.neg_tdiv, neg_neg]
    have h1 : 0 ≤ Int.tdiv (-c) 100 := Int.tdiv_nonneg (by omega) (by norm_num)
    omega

/-- C2 (amended): with the unset sentinel, the terminal line carries the
synthesised `(code/100, 0, 0)` exactly when the code lies in
`[200,299] ∪ [400,499] ∪ [500,599]`; for any code outside those ranges no
enhanced code is emitted. -/
theorem C2_enhanced_code_synthesis (code : Int) (t : String) (ts : List String) :
    ((200 ≤ code ∧ code ≤ 299) ∨ (400 ≤ code ∧ code ≤ 499) ∨ (500 ≤ code ∧ code ≤ 599) →
      (WriteResponse code EnhancedCodeNotSet (t :: ts)).getLast? =
        some (terminalLine code (Int.tdiv code 100, 0, 0) ((t :: ts).getLast (by simp)))) ∧
    (¬((200 ≤ code ∧ code ≤ 299) ∨ (400 ≤ code ∧ code ≤ 499) ∨ (500 ≤ code ∧ code ≤ 599)) →
      (WriteResponse code EnhancedCodeNotSet (t :: ts)).getLast? =
        some (terminalLine code NoEnhancedCode ((t :: ts).getLast (by simp)))) := by
  have hc := int_div100_cases code
  have hres : resolveEnhCode code EnhancedCodeNotSet =
      (if Int.tdiv code 100 = 2 ∨ Int.tdiv code 100 = 4 ∨ Int.tdiv code 100 = 5 then
        (Int.tdiv code 100, 0, 0) else NoEnhancedCode) := rfl
  constructor
  · intro h
    have hcat : Int.tdiv code 100 = 2 ∨ Int.tdiv code 100 = 4 ∨ Int.tdiv code 100 = 5 := by
      rcases h with h | h | h
      · exact Or.inl (hc.1.mpr h)
      · exact Or.inr (Or.inl (hc.2.1.mpr h))
      · exact Or.inr (Or.inr (hc.2.2.mpr h))
    simp only [WriteResponse, hres, if_pos hcat, List.getLast?_append]
    rfl
  · intro h
    have hcat : ¬(Int.tdiv code 100 = 2 ∨ Int.tdiv code 100 = 4 ∨ Int.tdiv code 100 = 5) := by
      rintro (hx | hx | hx)
      · exact h (Or.inl (hc.1.mp hx))
      · exact h (Or.inr (Or.inl (hc.2.1.mp hx)))
      · exact h (Or.inr (Or.inr (hc.2.2.mp hx)))
    simp only [WriteResponse, hres, if_neg hcat, List.getLast?_append]
    rfl

/-- Witness for C2 (amended): code 250 synthesises `2.0.0`, code 120 emits
no enhanced code. -/
theorem C2_enhanced_code_synthesis_witness :
    (WriteResponse 250 EnhancedCodeNotSet ["Hello"]).getLast? = some "250 2.0.0 Hello" ∧
    (WriteResponse 120 EnhancedCodeNotSet ["wait"]).getLast? = some "120 wait" := by
  have h1 := (C2_enhanced_code_synthesis 250 "Hello" []).1 (by decide)
  have h2 := (C2_enhanced_code_synthesis 120 "wait" []).2 (by decide)
  exact ⟨h1.trans (by rfl), h2.trans (by rfl)⟩

/-- Observable steps of `Conn.handleStartTLS` in order of execution. -/
inductive TLSEvent where
  | upstreamStartTLS (ok : Bool)
  | writeReply (code : Int) (msg : String)
  | downstreamHandshake (ok : Bool)
deriving Repr, DecidableEq

/-- Connection state after `Conn.handleStartTLS` returns. -/
structure StartTLSResult where
  events : List TLSEvent
  /-- whether `c.conn = tlsConn` was executed -/
  connReplaced : Bool
  /-- whether `c.init()` re-created the text framer -/
  framerReinit : Bool
  /-- whether the connection was closed by the handler -/
  closed : Bool
deriving Repr, DecidableEq

/-- `Conn.handleStartTLS` (backend.go): refuses when the downstream is
already TLS; otherwise asks the session to upgrade the upstream leg
(reply `up`), forwards that reply downstream, stops on upstream error,
and only then runs the downstream TLS handshake (outcome `handshakeOK`),
writing `550 Handshake error` when it fails — in either case the
downstream conn is replaced by the TLS conn and the framer re-created. -/
def handleStartTLS (isTLS : Bool) (up : Reply) (handshakeOK : Bool) : StartTLSResult :=
  if isTLS then
    { events := [.writeReply 502 "Already running in TLS"],
      connReplaced := false, framerReinit := false, closed := false }
  else
    let pre := [TLSEvent.upstreamStartTLS up.err.isNone, TLSEvent.writeReply up.code up.msg]
    if up.err ≠ none then
      { events := pre, connReplaced := false, framerReinit := false, closed := false }
    else
      let hs := TLSEvent.downstreamHandshake handshakeOK
      let tail := if handshakeOK then [hs] else [hs, .writeReply 550 "Handshake error"]
      { events := pre ++ tail, connReplaced := true, framerReinit := true, closed := false }

theorem handleStartTLS_events_err (up : Reply) (handshakeOK : Bool) (e : String)
    (he : up.err = some e) :
    (handleStartTLS false up handshakeOK).events =
      [TLSEvent.upstreamStartTLS false, TLSEvent.writeReply up.code up.msg] := by
  simp [handleStartTLS, he]

theorem handleStartTLS_events_ok (up : Reply) (handshakeOK : Bool) (he : up.err = none) :
    (handleStartTLS false up handshakeOK).events =
      [TLSEvent.upstreamStartTLS true, TLSEvent.writeReply up.code up.msg,
        TLSEvent.downstreamHandshake handshakeOK] ++
      (if handshakeOK then [] else [TLSEvent.writeReply 550 "Handshake error"]) := by
  cases handshakeOK <;> simp [handleStartTLS, he]

/-- C3: in every STARTTLS exchange on a not-yet-TLS downstream, the trace
begins with the upstream StartTLS call followed by the forwarded reply
(so the downstream reply is written only after the upstream call has
completed, successfully whenever the exchange proceeds), and every
downstream TLS handshake event is strictly preceded by a successful
upstream StartTLS event. -/
theorem C3_starttls_ordering (up : Reply) (handshakeOK : Bool) :
    (handleStartTLS false up handshakeOK).events.take 2 =
      [TLSEvent.upstreamStartTLS up.err.isNone, TLSEvent.writeReply up.code up.msg] ∧
    (∀ b, TLSEvent.downstreamHandshake b ∈ (handleStartTLS false up handshakeOK).events →
      up.err = none) ∧
    (∀ i b, (handleStartTLS false up handshakeOK).events.get? i =
        some (TLSEvent.downstreamHandshake b) →
      ∃ j, j < i ∧ (handleStartTLS false up handshakeOK).events.get? j =
        some (TLSEvent.upstreamStartTLS true)) := by
  cases he : up.err with
  | some e =>
    rw [handleStartTLS_events_err up handshakeOK e he]
    refine ⟨by rfl, ?_, ?_⟩
    · intro b hb
      simp at hb
    · intro i b h
      match i with
      | 0 => exact absurd h (by simp)
      | 1 => exact absurd h (by simp)
      | n + 2 => exact absurd h (by simp)
  | none =>
    rw [handleStartTLS_events_ok up handshakeOK he]
    cases handshakeOK with
    | true =>
      refine ⟨by rfl, fun b _ => rfl, ?_⟩
      intro i b h
      match i with
      | 0 => exact absurd h (by simp)
      | 1 => exact absurd h (by simp)
      | 2 => exact ⟨0, by omega, rfl⟩
      | n + 3 => exact absurd h (by simp)
    | false =>
      refine ⟨by rfl, fun b _ => rfl, ?_⟩
      intro i b h
      match i with
      | 0 => exact absurd h (by simp)
      | 1 => exact absurd h (by simp)
      | 2 => exact ⟨0, by omega, rfl⟩
      | 3 => exact absurd h (by simp)
      | n + 4 => exact absurd h (by simp)

/-- Witness for C3: with a successful upstream 220 reply, the trace is the
upstream call, then the forwarded reply, then the downstream handshake. -/
theorem C3_starttls_ordering_witness :
    (handleStartTLS false ⟨220, "2.0.0 Ready to start TLS", none⟩ true).events.take 2 =
      [TLSEvent.upstreamStartTLS true, TLSEvent.writeReply 220 "2.0.0 Ready to start TLS"] ∧
    ∃ j, j < 2 ∧ (handleStartTLS false ⟨220, "2.0.0 Ready to start TLS", none⟩ true).events.get? j =
      some (TLSEvent.upstreamStartTLS true) := by
  have h := C3_starttls_ordering ⟨220, "2.0.0 Ready to start TLS", none⟩ true
  exact ⟨h.1, h.2.2 2 true rfl⟩

/-- C10: when the downstream TLS handshake fails during STARTTLS handling
(upstream succeeded), the handler writes the 550 reply but still replaces
the downstream connection with the TLS connection, reinitialises the text
framer and does not close the connection — the same post-state as on
handshake success. -/
theorem C10_starttls_failed_handshake_state (up : Reply) (he : up.err = none) :
    TLSEvent.writeReply 550 "Handshake error" ∈ (handleStartTLS false up false).events ∧
    (handleStartTLS false up false).connReplaced = true ∧
    (handleStartTLS false up false).framerReinit = true ∧
    (handleStartTLS false up false).closed = false ∧
    (handleStartTLS false up false).connReplaced = (handleStartTLS false up true).connReplaced ∧
    (handleStartTLS false up false).framerReinit = (handleStartTLS false up true).framerReinit ∧
    (handleStartTLS false up false).closed = (handleStartTLS false up true).closed := by
  have hne : ¬(up.err ≠ none) := by simp [he]
  refine ⟨?_, ?_⟩
  · rw [show (handleStartTLS false up false).events = _ from handleStartTLS_events_ok up false he]
    simp
  · simp [handleStartTLS, hne]

/-- Witness for C10: concrete post-state after a failed downstream
handshake following upstream 220. -/
theorem C10_starttls_failed_handshake_state_witness :
    (handleStartTLS false ⟨220, "go ahead", none⟩ false).connReplaced = true ∧
    (handleStartTLS false ⟨220, "go ahead", none⟩ false).closed = false := by
  have h := C10_starttls_failed_handshake_state ⟨220, "go ahead", none⟩ rfl
  exact ⟨h.2.1, h.2.2.2.1⟩

/-- Result of `Session.Greet`: upstream capabilities and the raw reply. -/
structure GreetResult where
  caps : List String
  code : Int
  msg : String
  err : Option String
deriving Repr, DecidableEq

/-- Outcome of `Conn.handleHelo`: the replies written downstream (one entry
per `WriteResponse` call, each a list of lines) and the advertised
capability set afterwards. -/
structure HeloOutcome where
  responses : List (List String)
  serverCaps : List String
deriving Repr, DecidableEq

/-- `Conn.handleHelo` (backend.go). Inputs, in the order the handler
consumes them: `cmd` (`"HELO"` or `"EHLO"`, already upper-cased by
`Conn.handle`); `parsed`, the result of `parseHelloArgument(arg)`
(`parseHelloArgument` lives in parse.go, outside the embedded sources, so
its result is an input here); `sessionOK`, false when the session has to be
created and `Backend.Init` fails; `greet`, the session's `Greet` reply;
`tlsConfigured`, whether `c.server.TLSConfig != nil`; `isTLS`, whether the
downstream is already TLS; `serverCaps`, the advertised capabilities before
the call. Mirrors the source exactly — in particular the `cmd == "HELO"`
branch writes its reply and then falls through to the capability-block
`WriteResponse` (the Go code has no `return` there). -/
def handleHelo (cmd : String) (parsed : Option String) (sessionOK : Bool)
    (greet : GreetResult) (tlsConfigured : Bool) (isTLS : Bool)
    (serverCaps : List String) : HeloOutcome :=
  match parsed with
  | none =>
    { responses := [WriteResponse 501 (5, 5, 2) ["Domain/address argument required"]],
      serverCaps := serverCaps }
  | some domain =>
    if !sessionOK then
      { responses := [WriteResponse 421 (4, 0, 0) ["Internal server error"]],
        serverCaps := serverCaps }
    else if greet.err ≠ none then
      { responses := [WriteResponse greet.code (4, 0, 0) [greet.msg]],
        serverCaps := serverCaps }
    else
      let caps :=
        if greet.caps.length > 0 then
          greet.caps.filter fun i => !(i = "STARTTLS" && (!tlsConfigured || isTLS))
        else serverCaps
      let heloResp :=
        if cmd = "HELO" then [WriteResponse 250 (2, 0, 0) ["Hello " ++ domain]] else []
      { responses := heloResp ++ [WriteResponse 250 NoEnhancedCode (("Hello " ++ domain) :: caps)],
        serverCaps := caps }

/-- C4 fails on the code: for a HELO greeting the handler writes the
single-line reply and then, because the HELO branch lacks a `return`, also
writes the EHLO-style capability block — two replies to one command. -/
theorem C4_helo_emits_capability_block :
    handleHelo "HELO" (some "client.example.com") true
        ⟨["PIPELINING"], 250, "ok", none⟩ true false
        ["PIPELINING", "8BITMIME", "ENHANCEDSTATUSCODES"] =
      { responses := [["250 2.0.0 Hello client.example.com"],
                      ["250-Hello client.example.com", "250 PIPELINING"]],
        serverCaps := ["PIPELINING"] } ∧
    handleHelo "EHLO" (some "client.example.com") true
        ⟨["PIPELINING"], 250, "ok", none⟩ true false
        ["PIPELINING", "8BITMIME", "ENHANCEDSTATUSCODES"] =
      { responses := [["250-Hello client.example.com", "250 PIPELINING"]],
        serverCaps := ["PIPELINING"] } := by
  constructor <;> rfl

/-- `code2xxSuccess` (backend.go). -/
def code2xxSuccess (code : Int) : Bool :=
  (200 ≤ code) && (code ≤ 299)

/-- `code5xxPermFail` (backend.go). -/
def code5xxPermFail (code : Int) : Bool :=
  (500 ≤ code) && (code ≤ 559)

/-- The `for` loop of `Conn.handlePassthru` (backend.go): reads a further
downstream line, forwards it through the session callback `fn`, writes the
reply, and breaks when the reply is 2xx or permanent 5xx. `lines` are the
downstream lines still readable; their exhaustion models a read error. -/
def passthruLoop (fn : Int → String → String → Reply) : List String → List (Int × String)
  | [] => []
  | l :: rest =>
    let r := fn 0 l ""
    (r.code, r.msg) ::
      (if code2xxSuccess r.code || code5xxPermFail r.code then [] else passthruLoop fn rest)

/-- `Conn.handlePassthru` (backend.go): forwards `(cmd, arg)` through the
session callback, writes the reply, returns on callback error, and
otherwise enters the read-forward loop. The returned list is the sequence
of `(code, msg)` replies written downstream. -/
def handlePassthru (cmd arg : String) (fn : Int → String → String → Reply)
    (lines : List String) : List (Int × String) :=
  let r := fn 0 cmd arg
  (r.code, r.msg) :: (if r.err ≠ none then [] else passthruLoop fn lines)

/-- A session callback replying 250 to MAIL and 250 to anything else,
as the mock upstream of the test harness does. -/
def mailFn : Int → String → String → Reply := fun _ l _ =>
  if l = "MAIL" then ⟨250, "2.0.0 mail ok", none⟩ else ⟨250, "2.0.0 rcpt ok", none⟩

/-- C5 fails on the code: the first reply to MAIL is already 2xx
(terminal class), yet `handlePassthru` still reads the next downstream
line and forwards it through the same callback — the terminal-class check
covers only replies produced inside the loop, never the first reply. -/
theorem C5_passthru_forwards_after_terminal :
    code2xxSuccess 250 = true ∧
    handlePassthru "MAIL" "" mailFn ["RCPT TO:<x@y>"] =
      [(250, "2.0.0 mail ok"), (250, "2.0.0 rcpt ok")] := by
  constructor <;> rfl

/-- `lineSplitter.Write` (linesplitter.go) as one call on state `count`
(bytes emitted since the last separator): consume the input in chunks
bounded by the remaining budget of the current line, emit a chunk, emit
`sep` and reset the counter whenever the running count reaches `L`, and
loop until the input is exhausted. Returns the bytes passed to the
underlying writer and the new count. The `sz = 0` branch is reached only
for empty input whenever `0 < L` and `count < L` (the only states the
repo creates; the Go loop does not terminate for `L = 0`). -/
def lsWrite (L : Nat) (sep : List Nat) (inp : List Nat) (count : Nat) : List Nat × Nat :=
  let sz := min inp.length (L - count)
  if _hsz : sz = 0 then ([], count)
  else
    let chunk := inp.take sz
    let sepOut : List Nat := if L ≤ count + sz then sep else []
    let count1 : Nat := if L ≤ count + sz then 0 else count + sz
    let rest := inp.drop sz
    if _hrest : rest.length = 0 then (chunk ++ sepOut, count1)
    else
      let r := lsWrite L sep rest count1
      (chunk ++ sepOut ++ r.1, r.2)
termination_by inp.length
decreasing_by
  simp only [List.length_drop]
  omega

/-- The splitter one byte at a time: emit the byte, and when the running
count reaches `L` also emit `sep` and reset the counter. A proof-side
reformulation of `lsWrite` whose value does not depend on how the input
is sliced into chunks. -/
def lsRun (L : Nat) (sep : List Nat) : List Nat → Nat → List Nat × Nat
  | [], c => ([], c)
  | b :: bs, c =>
    if L ≤ c + 1 then
      ((b :: sep) ++ (lsRun L sep bs 0).1, (lsRun L sep bs 0).2)
    else
      (b :: (lsRun L sep bs (c + 1)).1, (lsRun L sep bs (c + 1)).2)

theorem lsRun_append (L : Nat) (sep : List Nat) (xs ys : List Nat) (c : Nat) :
    lsRun L sep (xs ++ ys) c =
      ((lsRun L sep xs c).1 ++ (lsRun L sep ys (lsRun L sep xs c).2).1,
        (lsRun L sep ys (lsRun L sep xs c).2).2) := by
  induction xs generalizing c with
  | nil => simp [lsRun]
  | cons b bs ih =>
    by_cases h : L ≤ c + 1
    · simp [lsRun, if_pos h, ih, List.append_assoc]
    · simp [lsRun, if_neg h, ih]

theorem lsRun_count_lt (L : Nat) (sep : List Nat) (xs : List Nat) (c : Nat)
    (hL : 0 < L) (hc : c < L) : (lsRun L sep xs c).2 < L := by
  induction xs generalizing c with
  | nil => simpa [lsRun]
  | cons b bs ih =>
    by_cases h : L ≤ c + 1
    · simpa [lsRun, if_pos h] using ih 0 hL
    · simpa [lsRun, if_neg h] using ih (c + 1) (by omega)

/-- Over a slice that fits in the current line's remaining budget, the
byte-at-a-time splitter emits the bytes verbatim, closing the line with
`sep` exactly when the budget is used up. -/
theorem lsRun_chunk (L : Nat) (sep : List Nat) (xs : List Nat) (c : Nat)
    (hc : c < L) (h : c + xs.length ≤ L) :
    lsRun L sep xs c =
      (if c + xs.length = L then (xs ++ sep, 0) else (xs, c + xs.length)) := by
  induction xs generalizing c with
  | nil =>
    simp only [lsRun, List.length_nil, Nat.add_zero]
    rw [if_neg (by omega)]
  | cons b bs ih =>
    simp only [List.length_cons] at h ⊢
    by_cases hb : L ≤ c + 1
    · have hbs : bs = [] := List.eq_nil_of_length_eq_zero (by omega)
      subst hbs
      simp only [lsRun, if_pos hb, List.length_nil]
      rw [if_pos (by omega)]
      simp
    · simp only [lsRun, if_neg hb]
      rw [ih (c + 1) (by omega) (by omega)]
      by_cases hend : c + 1 + bs.length = L
      · rw [if_pos hend, if_pos (by omega)]
        simp
      · rw [if_neg hend, if_neg (by omega)]
        simp
        omega

/-- `lineSplitter.Write` agrees with the byte-at-a-time splitter from any
reachable state (`0 < L`, `count < L`): slicing into chunks does not change
the emitted bytes. -/
theorem lsWrite_eq_run (L : Nat) (sep : List Nat) :
    ∀ (n : Nat) (inp : List Nat) (c : Nat), inp.length ≤ n → 0 < L → c < L →
      lsWrite L sep inp c = lsRun L sep inp c := by
  intro n
  induction n with
  | zero =>
    intro inp c hn hL hc
    have hinp : inp = [] := List.eq_nil_of_length_eq_zero (by omega)
    subst hinp
    rw [lsWrite]
    simp [lsRun]
  | succ n ih =>
    intro inp c hn hL hc
    rw [lsWrite]
    by_cases hsz : min inp.length (L - c) = 0
    · have hinp : inp = [] := by
        rcases Nat.min_eq_zero_iff.mp hsz with h0 | h0
        · exact List.eq_nil_of_length_eq_zero h0
        · omega
      subst hinp
      rw [dif_pos hsz]
      simp [lsRun]
    · rw [dif_neg hsz]
      have hsz1 : 1 ≤ min inp.length (L - c) := Nat.one_le_iff_ne_zero.mpr hsz
      have hszlen : min inp.length (L - c) ≤ inp.length := Nat.min_le_left _ _
      have hszL : c + min inp.length (L - c) ≤ L := by
        have := Nat.min_le_right inp.length (L - c)
        omega
      have htake : (inp.take (min inp.length (L - c))).length = min inp.length (L - c) := by
        simp [List.length_take]
      have hchunk := lsRun_chunk L sep (inp.take (min inp.length (L - c))) c hc
        (by rw [htake]; exact hszL)
      by_cases hrest : (inp.drop (min inp.length (L - c))).length = 0
      · rw [dif_pos hrest]
        have hfull : min inp.length (L - c) = inp.length := by
          simp [List.length_drop] at hrest
          omega
        have htakeall : inp.take (min inp.length (L - c)) = inp := by
          rw [hfull]
          exact List.take_length inp
        have hrun := lsRun_chunk L sep inp c hc (by omega)
        by_cases hb : L ≤ c + min inp.length (L - c)
        · rw [if_pos hb, if_pos hb, hrun, if_pos (by omega), htakeall]
        · rw [if_neg hb, if_neg hb, hrun, if_neg (by omega), htakeall]
          rw [hfull]
          simp
      · rw [dif_neg hrest]
        have hlt : min inp.length (L - c) < inp.length := by
          simp [List.length_drop] at hrest
          omega
        have hbound : c + min inp.length (L - c) = L := by
          have : min inp.length (L - c) = L - c := by omega
          omega
        have hb : L ≤ c + min inp.length (L - c) := by omega
        rw [if_pos hb, if_pos hb]
        have hih := ih (inp.drop (min inp.length (L - c))) 0
          (by simp [List.length_drop]; omega) hL hL
        rw [hih]
        conv_rhs => rw [← List.take_append_drop (min inp.length (L - c)) inp]
        rw [lsRun_append]
        rw [hchunk, if_pos (by rw [htake]; omega)]

/-- The bytes the splitter's underlying writer receives across a sequence
of `Write` calls, starting from the fresh state `NewLineSplitterWriter`
creates (`count = 0`). -/
def lsWriteAll (L : Nat) (sep : List Nat) : List (List Nat) → Nat → List Nat
  | [], _ => []
  | w :: ws, c => (lsWrite L sep w c).1 ++ lsWriteAll L sep ws (lsWrite L sep w c).2

theorem lsWriteAll_eq_run (L : Nat) (sep : List Nat) (hL : 0 < L) :
    ∀ (ws : List (List Nat)) (c : Nat), c < L →
      lsWriteAll L sep ws c = (lsRun L sep ws.flatten c).1 := by
  intro ws
  induction ws with
  | nil =>
    intro c hc
    simp [lsWriteAll, List.flatten, lsRun]
  | cons w ws ih =>
    intro c hc
    have hw := lsWrite_eq_run L sep w.length w c (le_refl _) hL hc
    have hcount := lsRun_count_lt L sep w c hL hc
    have hj : (w :: ws).flatten = w ++ ws.flatten := rfl
    simp only [lsWriteAll, hj, hw]
    rw [lsRun_append, ih _ hcount]

/-- The separator bytes passed to the splitter at mailcopy.go's
`ls.NewWriter(76, []byte("\r\n"), dst)` call. -/
def crlf : List Nat := [13, 10]

/-- The 76-byte lines of a stream: maximal 76-byte chunks; a final short
(possibly empty) line collects the remainder. -/
def linesOf76 (xs : List Nat) : List (List Nat) :=
  if xs.length < 76 then [xs] else xs.take 76 :: linesOf76 (xs.drop 76)
termination_by xs.length
decreasing_by
  simp only [List.length_drop]
  omega

theorem linesOf76_ne_nil (xs : List Nat) : linesOf76 xs ≠ [] := by
  rw [linesOf76]
  split <;> simp

theorem intercalate_cons_of_ne_nil {α : Type} (sep x : List α) (ls : List (List α))
    (h : ls ≠ []) :
    List.intercalate sep (x :: ls) = x ++ sep ++ List.intercalate sep ls := by
  cases ls with
  | nil => exact absurd rfl h
  | cons y t => simp [List.intercalate, List.intersperse]

/-- From a fresh state, the byte-at-a-time splitter emits exactly the
76-byte lines of its input joined by the separator. -/
theorem lsRun76_intercalate (sep : List Nat) :
    ∀ (n : Nat) (xs : List Nat), xs.length ≤ n →
      (lsRun 76 sep xs 0).1 = List.intercalate sep (linesOf76 xs) := by
  intro n
  induction n with
  | zero =>
    intro xs h
    have hxs : xs = [] := List.eq_nil_of_length_eq_zero (by omega)
    subst hxs
    rw [linesOf76]
    simp [lsRun, List.intercalate]
  | succ n ih =>
    intro xs h
    rw [linesOf76]
    by_cases hlt : xs.length < 76
    · rw [if_pos hlt]
      rw [lsRun_chunk 76 sep xs 0 (by omega) (by omega), if_neg (by omega)]
      simp [List.intercalate]
    · rw [if_neg hlt]
      have h76 : (xs.take 76).length = 76 := by
        simp [List.length_take]
        omega
      conv_lhs => rw [← List.take_append_drop 76 xs]
      rw [lsRun_append]
      rw [lsRun_chunk 76 sep (xs.take 76) 0 (by omega) (by rw [h76]), if_pos (by rw [h76])]
      rw [intercalate_cons_of_ne_nil sep _ _ (linesOf76_ne_nil _)]
      rw [← ih (xs.drop 76) (by simp [List.length_drop]; omega)]

theorem linesOf76_dropLast_length :
    ∀ (n : Nat) (xs : List Nat), xs.length ≤ n →
      ∀ l ∈ (linesOf76 xs).dropLast, l.length = 76 := by
  intro n
  induction n with
  | zero =>
    intro xs h l hl
    have hxs : xs = [] := List.eq_nil_of_length_eq_zero (by omega)
    subst hxs
    rw [linesOf76] at hl
    simp at hl
  | succ n ih =>
    intro xs h l hl
    rw [linesOf76] at hl
    by_cases hlt : xs.length < 76
    · rw [if_pos hlt] at hl
      simp at hl
    · rw [if_neg hlt] at hl
      obtain ⟨y, t, hyt⟩ : ∃ y t, linesOf76 (xs.drop 76) = y :: t := by
        cases hc : linesOf76 (xs.drop 76) with
        | nil => exact absurd hc (linesOf76_ne_nil _)
        | cons y t => exact ⟨y, t, rfl⟩
      rw [hyt] at hl
      rw [List.dropLast_cons₂] at hl
      rcases List.mem_cons.mp hl with hl | hl
      · subst hl
        simp [List.length_take]
        omega
      · have := ih (xs.drop 76) (by simp [List.length_drop]; omega) l
        rw [hyt] at this
        exact this hl

theorem linesOf76_getLastD_length :
    ∀ (n : Nat) (xs : List Nat), xs.length ≤ n →
      ∀ (d : List Nat), ((linesOf76 xs).getLastD d).length ≤ 76 := by
  intro n
  induction n with
  | zero =>
    intro xs h d
    have hxs : xs = [] := List.eq_nil_of_length_eq_zero (by omega)
    subst hxs
    rw [linesOf76]
    simp
  | succ n ih =>
    intro xs h d
    rw [linesOf76]
    by_cases hlt : xs.length < 76
    · rw [if_pos hlt]
      simpa using Nat.le_of_lt hlt
    · rw [if_neg hlt]
      rw [List.getLastD_cons]
      exact ih (xs.drop 76) (by simp [List.length_drop]; omega) _

/-- Witness-style instance of the C6 statement at a concrete write
sequence: 100 bytes arrive in two writes; the block is one 76-byte line, a
separator, and a 24-byte tail. -/
theorem lsWriteAll_hundred_bytes :
    lsWriteAll 76 crlf [List.replicate 60 65, List.replicate 40 66] 0 =
      List.replicate 60 65 ++ List.replicate 16 66 ++ crlf ++ List.replicate 24 66 := by
  rw [lsWriteAll_eq_run 76 crlf (by omega) _ 0 (by omega)]
  decide

/-- C6: for every sequence of writes pushed through a fresh
`lineSplitter` configured as in `handleMessagePart` for base64 HTML parts
(width 76, separator CRLF), the emitted block is a list of lines joined by
CRLF in which every line except the last is exactly 76 bytes long. -/
theorem C6_base64_line_width (writes : List (List Nat)) :
    ∃ lines : List (List Nat), lines ≠ [] ∧
      lsWriteAll 76 crlf writes 0 = List.intercalate crlf lines ∧
      (∀ l ∈ lines.dropLast, l.length = 76) ∧
      (lines.getLastD []).length ≤ 76 := by
  refine ⟨linesOf76 writes.flatten, linesOf76_ne_nil _, ?_, ?_, ?_⟩
  · rw [lsWriteAll_eq_run 76 crlf (by omega) writes 0 (by omega)]
    exact lsRun76_intercalate crlf writes.flatten.length writes.flatten (le_refl _)
  · exact linesOf76_dropLast_length writes.flatten.length writes.flatten (le_refl _)
  · exact linesOf76_getLastD_length writes.flatten.length writes.flatten (le_refl _) []

/-- The `Wrapper` contract (mailcopy.go) as far as `MailCopy`'s branch
decision consumes it: whether wrapping/tracking is active. -/
structure WrapperModel where
  active : Bool

/-- `MailCopy` (mailcopy.go): when `w.Active()` is false the body is
`io.Copy(dst, src)` — the destination receives exactly the source bytes
and no error arises from the copy itself; when active it parses the
message, rewrites headers and dispatches on MIME structure (lines 44–76),
supplied here as `activeBranch` since no claim about `MailCopy` reaches
that path. Returns the bytes written and the error. -/
def MailCopy (w : WrapperModel) (src : List Nat)
    (activeBranch : List Nat → List Nat × Option String) : List Nat × Option String :=
  if !w.active then (src, none) else activeBranch src

/-- C7: for every message streamed through `MailCopy` with an inactive
wrapper, the bytes written to the destination are exactly the bytes read
from the source. -/
theorem C7_mailcopy_inactive_byte_copy (w : WrapperModel) (src : List Nat)
    (activeBranch : List Nat → List Nat × Option String) (h : w.active = false) :
    MailCopy w src activeBranch = (src, none) := by
  simp [MailCopy, h]

/-- Witness for C7: an inactive wrapper copies three bytes through even
when the active branch would do something entirely different. -/
theorem C7_mailcopy_inactive_byte_copy_witness :
    MailCopy ⟨false⟩ [72, 73, 33] (fun _ => ([0], some "unused")) = ([72, 73, 33], none) :=
  C7_mailcopy_inactive_byte_copy ⟨false⟩ [72, 73, 33] (fun _ => ([0], some "unused")) rfl

/-- Strings are handled as their character lists (`String.data`), on which
the Go string functions are modelled directly. -/
abbrev Str := List Char

/-- `strings.Split(s, sep)` for a one-character separator: Go's Split
returns `[""]` on the empty string and one (possibly empty) field per
separator occurrence. -/
def splitOnChar (sep : Char) : Str → List Str
  | [] => [[]]
  | c :: cs =>
    if c = sep then [] :: splitOnChar sep cs
    else
      match splitOnChar sep cs with
      | [] => [[c]]
      | w :: ws => (c :: w) :: ws

/-- The text before and after the first occurrence of `sep`, when any. -/
def breakAtFirst (sep : Char) : Str → Option (Str × Str)
  | [] => none
  | c :: cs =>
    if c = sep then some ([], cs)
    else (breakAtFirst sep cs).map fun p => (c :: p.1, p.2)

/-- `strings.SplitN(line, " ", 2)`: at most two fields, split at the first
space only. -/
def splitN2 (line : Str) : List Str :=
  match breakAtFirst ' ' line with
  | none => [line]
  | some (a, b) => [a, b]

/-- Assignment `m[k] = v` on a Go map modelled as an association list with
unique keys: replace in place, or append a new binding. -/
def mapAssign (m : List (Str × Str)) (k v : Str) : List (Str × Str) :=
  if m.any fun p => p.1 = k then
    m.map fun p => if p.1 = k then (k, v) else p
  else m ++ [(k, v)]

/-- The extension-map construction of `Client.ehlo` (client.go): split the
reply message on newline; when more than one line, drop the first
(greeting) line and, for each remaining line, split at the first space
and assign `ext[args[0]] = args[1]` (or `""` when there is no space). -/
def ehloParse (msg : Str) : List (Str × Str) :=
  let extList := splitOnChar '\n' msg
  if extList.length > 1 then
    (extList.drop 1).foldl
      (fun ext line =>
        match splitN2 line with
        | [a0, a1] => mapAssign ext a0 a1
        | [a0] => mapAssign ext a0 []
        | _ => ext) []
  else []

/-- `strings.ToUpper` for the ASCII tokens EHLO replies carry. -/
def strToUpper (s : Str) : Str := s.map Char.toUpper

/-- C9's wording of the EHLO parse: split the message by newline, drop the
greeting line, split each remainder at the first space into
`(token, param)` and store under the upper-cased token; a token with no
parameter maps to the empty string. Stated for comparison with
`ehloParse`. -/
def ehloParseSpec (msg : Str) : List (Str × Str) :=
  ((splitOnChar '\n' msg).drop 1).foldl
    (fun m line =>
      match splitN2 line with
      | [t, p] => mapAssign m (strToUpper t) p
      | [t] => mapAssign m (strToUpper t) []
      | _ => m) []

/-- The amended wording: identical, except the token is stored exactly as
received (no upper-casing at store time). -/
def ehloParseAmended (msg : Str) : List (Str × Str) :=
  ((splitOnChar '\n' msg).drop 1).foldl
    (fun m line =>
      match splitN2 line with
      | [t, p] => mapAssign m t p
      | [t] => mapAssign m t []
      | _ => m) []

/-- Counterexample to C9: a lower-case extension token is stored exactly
as received, not upper-cased — `ehloParse` and the claim's parse disagree
on `"250 mock greeting\nsize 100"`. -/
theorem C9_ehlo_uppercase_counterexample :
    ehloParse "250 mock greeting\nsize 100".data = [("size".data, "100".data)] ∧
    ehloParseSpec "250 mock greeting\nsize 100".data = [("SIZE".data, "100".data)] ∧
    ehloParse "250 mock greeting\nsize 100".data ≠
      ehloParseSpec "250 mock greeting\nsize 100".data := by
  refine ⟨by decide, by decide, by decide⟩

/-- C9 (amended): EHLO response parsing splits the server message by
newline, drops the greeting line, splits each remaining line at the first
space into `(token, param)`, and stores each entry under the token exactly
as received (case-insensitivity is supplied by `Extension`, which
upper-cases the queried name); a token with no parameter maps to the
empty string. -/
theorem C9_ehlo_parse (msg : Str) : ehloParse msg = ehloParseAmended msg := by
  unfold ehloParse ehloParseAmended
  by_cases h : (splitOnChar '\n' msg).length > 1
  · rw [if_pos h]
  · rw [if_neg h]
    have hd : (splitOnChar '\n' msg).drop 1 = [] := by
      apply List.drop_eq_nil_of_le
      omega
    rw [hd]
    rfl

/-- `strings.ContainsAny(line, "\n\r")`. -/
def hasCRLF (line : Str) : Bool :=
  line.any fun ch => ch = '\n' || ch = '\r'

/-- The error text of `validateLine` (client.go). -/
def lineErrText : String := "smtp: A line must not contain CR or LF"

/-- `validateLine` (client.go): reject a line containing CR or LF. -/
def validateLine (line : Str) : Option String :=
  if hasCRLF line then some lineErrText else none

/-- The client fields the hello exchange reads or writes (client.go). -/
structure ClientH where
  localName : Str
  didHello : Bool
  helloCode : Int
  helloMsg : String
  helloErr : Option String
  ext : Option (List (Str × Str))
deriving Repr, DecidableEq

/-- Result of a client call: post-state, command lines sent on the wire
(in order), and the `(code, msg, err)` return. -/
structure CallResult where
  st : ClientH
  sent : List Str
  code : Int
  msg : String
  err : Option String
deriving Repr, DecidableEq

/-- `Client.ehlo` (client.go): send `EHLO <localName>` (the upstream's
reply to a sent line is `up`), and on success replace the extension map
with the parse of the reply message. -/
def clientEhlo (up : Str → Reply) (st : ClientH) : CallResult :=
  let line := "EHLO ".data ++ st.localName
  let r := up line
  let st1 := if r.err = none then { st with ext := some (ehloParse r.msg.data) } else st
  ⟨st1, [line], r.code, r.msg, r.err⟩

/-- `Client.helo` (client.go): clear the extension map, send
`HELO <localName>`. -/
def clientHelo (up : Str → Reply) (st : ClientH) : CallResult :=
  let st1 := { st with ext := none }
  let line := "HELO ".data ++ st1.localName
  let r := up line
  ⟨st1, [line], r.code, r.msg, r.err⟩

/-- `Client.hello` (client.go): on the first call run EHLO and fall back
to HELO on error, caching the outcome in the hello fields; later calls
return the cached outcome without sending anything. -/
def clientHelloExchange (up : Str → Reply) (st : ClientH) : CallResult :=
  if st.didHello then ⟨st, [], st.helloCode, st.helloMsg, st.helloErr⟩
  else
    let st1 := { st with didHello := true }
    let e := clientEhlo up st1
    if e.err ≠ none then
      let h := clientHelo up e.st
      ⟨{ h.st with helloCode := h.code, helloMsg := h.msg, helloErr := h.err },
        e.sent ++ h.sent, h.code, h.msg, h.err⟩
    else
      ⟨{ e.st with helloCode := e.code, helloMsg := e.msg, helloErr := e.err },
        e.sent, e.code, e.msg, e.err⟩

/-- `Client.Hello` (client.go): validate the local name — on CR/LF return
`(421, err.Error(), err)` without touching the connection — then store it
and run the hello exchange. -/
def clientHello (up : Str → Reply) (st : ClientH) (localName : Str) : CallResult :=
  match validateLine localName with
  | some e => ⟨st, [], 421, e, some e⟩
  | none => clientHelloExchange up { st with localName := localName }

theorem clientHelloExchange_fresh_sent (up : Str → Reply) (st : ClientH)
    (hd : st.didHello = false) :
    (clientHelloExchange up st).sent.head? = some ("EHLO ".data ++ st.localName) := by
  simp only [clientHelloExchange, clientEhlo, clientHelo, hd]
  split
  next hfalse => exact absurd hfalse (by simp)
  next => split <;> rfl

/-- C8: a local name containing CR or LF makes `Client.Hello` return code
421 with the line-validation error and nothing is sent on the wire
(rejection precedes send, and the state is untouched); a clean local name
on a fresh client leads to the greeting being sent upstream, starting with
`EHLO <localName>`. -/
theorem C8_hello_line_safety (up : Str → Reply) (st : ClientH) (name : Str) :
    (hasCRLF name = true →
      clientHello up st name = ⟨st, [], 421, lineErrText, some lineErrText⟩) ∧
    (hasCRLF name = false → st.didHello = false →
      (clientHello up st name).sent.head? = some ("EHLO ".data ++ name)) := by
  constructor
  · intro h
    simp [clientHello, validateLine, h]
  · intro h hd
    have hv : validateLine name = none := by simp [validateLine, h]
    simp only [clientHello, hv]
    exact clientHelloExchange_fresh_sent up { st with localName := name } hd

/-- Witness for C8: the name `"a\rb"` is rejected with 421 and nothing
sent; the name `"localhost"` on a fresh client sends `EHLO localhost`. -/
theorem C8_hello_line_safety_witness :
    clientHello (fun _ => ⟨250, "ok", none⟩)
        ⟨"localhost".data, false, 0, "", none, none⟩ "a\rb".data =
      ⟨⟨"localhost".data, false, 0, "", none, none⟩, [], 421, lineErrText, some lineErrText⟩ ∧
    (clientHello (fun _ => ⟨250, "ok", none⟩)
        ⟨"localhost".data, false, 0, "", none, none⟩ "localhost".data).sent.head? =
      some ("EHLO localhost".data) := by
  have h := C8_hello_line_safety (fun _ => ⟨250, "ok", none⟩)
    ⟨"localhost".data, false, 0, "", none, none⟩ "a\rb".data
  have h2 := C8_hello_line_safety (fun _ => ⟨250, "ok", none⟩)
    ⟨"localhost".data, false, 0, "", none, none⟩ "localhost".data
  refine ⟨h.1 (by decide), (h2.2 (by decide) rfl).trans ?_⟩
  decide

end SmtpProxy
